import Mathlib

/-!
Verification development for the repository's two cores:

* the 3-legged OAuth token helper (`src/auth/threelegged.go`): the token
  response handling of `fetchToken` and the state check of
  `tokenProviderWithHandler.Token` are embedded directly from the source;

* the datastore entity-load engine: only its characterization tests are in
  `src/auth/threelegged.go` (the datastore part of the file); the engine
  itself (`load.go`) is absent, so it is modelled from the specification
  (field-path resolution with dotted names, value coercion, merge
  semantics, capability dispatch) and pinned by the in-src tests.
-/

set_option autoImplicit false

/- ===================== OAuth 2.0 3-legged flow (from src) ================ -/

/-- Raw HTTP response data carried by the typed `*Error` of the auth package
(`Error{Response: r, Body: body}` in `fetchToken`). -/
structure RawResponse where
  status : Nat
  body : String
deriving DecidableEq, Repr

/-- `tokenJSON` from threelegged.go: the JSON shape of a token response. -/
structure TokenJSON where
  accessToken : String
  tokenType : String
  refreshToken : String
  expiresIn : Int
  errorCode : String
  errorDescription : String
  errorURI : String
deriving DecidableEq, Repr

/-- The value/type part of an auth `Token` (expiry omitted: it is computed
from the ambient clock, which is outside the embedded core). -/
structure AuthToken where
  value : String
  ttype : String
deriving DecidableEq, Repr

/-- Errors produced by `fetchToken`'s response handling: either the typed
`*Error` carrying the raw HTTP response plus OAuth error fields, or a plain
`errors.New`/`fmt.Errorf` message. -/
inductive FetchErr where
  | typedErr (resp : RawResponse) (code description uri : String)
  | plainMsg (msg : String)
deriving DecidableEq, Repr

/-- Whether an error is the typed variant that carries the raw HTTP
response (`*Error` in the auth package). -/
def FetchErr.carriesRawResponse : FetchErr → Bool
  | .typedErr _ _ _ _ => true
  | .plainMsg _ => false

/-- The parse outcome of the response body, per the content-type switch in
`fetchToken` (urlencoded/plain vs default JSON); parsing itself is the
standard library's and is taken as an input. -/
inductive ParsedBody where
  | formVals (vals : List (String × String))
  | formParseErr (msg : String)
  | jsonTok (tj : TokenJSON)
  | jsonParseErr (msg : String)

/-- `url.Values.Get`: first value for a key, `""` when absent. -/
def getVal : List (String × String) → String → String
  | [], _ => ""
  | (k', v) :: r, k => if k' = k then v else getVal r k

/-- Response handling of `fetchToken` (threelegged.go lines 280-346): build
the typed error from the raw response, fill in OAuth error fields from the
parsed body, fail on non-2xx status or a reported OAuth error, fail with a
plain "missing access_token" error on an empty token value, otherwise
return the token and refresh token. -/
def fetchTokenResp (resp : RawResponse) (pb : ParsedBody) :
    Except FetchErr (AuthToken × String) :=
  match pb with
  | .formParseErr m =>
      if resp.status < 200 ∨ 299 < resp.status then
        .error (.typedErr resp "" "" "")
      else
        .error (.plainMsg ("auth: cannot parse response: " ++ m))
  | .jsonParseErr m =>
      if resp.status < 200 ∨ 299 < resp.status then
        .error (.typedErr resp "" "" "")
      else
        .error (.plainMsg ("auth: cannot parse json: " ++ m))
  | .formVals vals =>
      let code := getVal vals "error"
      let token : AuthToken :=
        { value := getVal vals "access_token", ttype := getVal vals "token_type" }
      let refreshToken := getVal vals "refresh_token"
      if resp.status < 200 ∨ 299 < resp.status ∨ code ≠ "" then
        .error (.typedErr resp code (getVal vals "error_description")
          (getVal vals "error_uri"))
      else if token.value = "" then
        .error (.plainMsg "auth: server response missing access_token")
      else
        .ok (token, refreshToken)
  | .jsonTok tj =>
      let token : AuthToken := { value := tj.accessToken, ttype := tj.tokenType }
      if resp.status < 200 ∨ 299 < resp.status ∨ tj.errorCode ≠ "" then
        .error (.typedErr resp tj.errorCode tj.errorDescription tj.errorURI)
      else if token.value = "" then
        .error (.plainMsg "auth: server response missing access_token")
      else
        .ok (token, tj.refreshToken)

/-- The `(code, state)` pair produced by an `AuthorizationHandler`. -/
structure HandlerResult where
  code : String
  state : String
deriving DecidableEq, Repr

/-- `tokenProviderWithHandler.Token` (threelegged.go lines 233-244): the
handler result (already applied to the auth-code URL) either errors, or its
state is compared to the configured state; only on equality is the
code-for-token exchange invoked. -/
def tokenWithHandler (tpState : String)
    (handlerRes : Except FetchErr HandlerResult)
    (exchange : String → Except FetchErr (AuthToken × String)) :
    Except FetchErr AuthToken :=
  match handlerRes with
  | .error e => .error e
  | .ok hr =>
      if hr.state ≠ tpState then
        .error (.plainMsg "auth: state mismatch in 3-legged-OAuth flow")
      else
        match exchange hr.code with
        | .error e => .error e
        | .ok (tok, _) => .ok tok

/- ===================== Datastore load engine (modelled) ================== -/

/-- A datastore key reference; may be complete, incomplete, or built over an
incomplete parent (the "invalid" shape of the tests). The load engine treats
keys as opaque values to assign. -/
inductive KeyRef where
  | complete (kind name : String)
  | incomplete (kind : String)
  | child (kind name : String) (parent : KeyRef)
deriving DecidableEq, Repr

/-- A timezone: UTC or a local offset in minutes. -/
inductive TZ where
  | utc
  | localOff (offsetMin : Int)
deriving DecidableEq, Repr

/-- A time value: seconds since the Unix epoch plus the timezone it is
expressed in (mirroring `time.Time`'s location). -/
structure TimeVal where
  sec : Int
  tz : TZ
deriving DecidableEq, Repr

/-- A civil (proleptic Gregorian) calendar date, as in `civil.Date`. -/
structure CivDate where
  year : Int
  month : Nat
  day : Nat
deriving DecidableEq, Repr

/-- A wall-clock time of day, as in `civil.Time` (sub-second part omitted). -/
structure Clock where
  hour : Nat
  minute : Nat
  second : Nat
deriving DecidableEq, Repr

/-- Civil date from a count of days since 1970-01-01 (proleptic Gregorian
calendar arithmetic, as performed by `time.Time.Date` in UTC). -/
def civilFromDays (z0 : Int) : CivDate :=
  let z := z0 + 719468
  let era := Int.ediv z 146097
  let doe := z - era * 146097
  let yoe := Int.ediv (doe - Int.ediv doe 1460 + Int.ediv doe 36524 - Int.ediv doe 146096) 365
  let y := yoe + era * 400
  let doy := doe - (365 * yoe + Int.ediv yoe 4 - Int.ediv yoe 100)
  let mp := Int.ediv (5 * doy + 2) 153
  let d := doy - Int.ediv (153 * mp + 2) 5 + 1
  let m := if mp < 10 then mp + 3 else mp - 9
  { year := y + (if m ≤ 2 then 1 else 0), month := m.toNat, day := d.toNat }

/-- Clock from a (nonnegative) second-of-day count. -/
def secondsToClock (s : Int) : Clock :=
  { hour := (Int.ediv s 3600).toNat
    minute := (Int.ediv (Int.emod s 3600) 60).toNat
    second := (Int.emod s 60).toNat }

/-- The closed tagged union of decoded property values (spec §3
DecodedValue). Property and field names are paths of dot-separated
segments; float payloads are opaque. -/
inductive DVal where
  | null
  | int (i : Int)
  | float (payload : Int)
  | bool (b : Bool)
  | str (s : String)
  | time (sec : Int) (tz : TZ)
  | key (k : KeyRef)
  | entity (key : Option KeyRef) (props : List (List String × DVal))
  | arr (vs : List DVal)

/-- The kind tag of a decoded value. -/
inductive VKind where
  | kNull | kInt | kFloat | kBool | kStr | kTime | kKey | kEntity | kArr
deriving DecidableEq, Repr

/-- Kind of a decoded value. -/
def kindOf : DVal → VKind
  | .null => .kNull
  | .int _ => .kInt
  | .float _ => .kFloat
  | .bool _ => .kBool
  | .str _ => .kStr
  | .time _ _ => .kTime
  | .key _ => .kKey
  | .entity _ _ => .kEntity
  | .arr _ => .kArr

/-- Human-readable kind name, as used in field-mismatch error messages. -/
def kindName : VKind → String
  | .kNull => "null"
  | .kInt => "int64"
  | .kFloat => "float64"
  | .kBool => "bool"
  | .kStr => "string"
  | .kTime => "time.Time"
  | .kKey => "key"
  | .kEntity => "entity"
  | .kArr => "slice"

/-- Destination field types of a native record (spec §3 Field Map):
scalars, time and the well-known civil wrappers, nested structs (field
list keyed by effective, possibly dotted, property-name paths), pointers,
slices, and interface slots (unconstrained or constrained to a capability
satisfied by the listed value kinds). -/
inductive FTy where
  | tInt | tFloat | tBool | tStr
  | tTime | tDate | tDateTime | tTimeOfDay
  | tStruct (fields : List (List String × FTy))
  | tPtr (t : FTy)
  | tSlice (t : FTy)
  | tIfaceAny
  | tIface (ifaceName : String) (allowed : List VKind)

/-- Runtime values held by destination fields. Struct values are partial
association lists from effective field-name paths to values: an absent
entry reads as the field type's zero value. -/
inductive GoVal where
  | vInt (i : Int)
  | vFloat (payload : Int)
  | vBool (b : Bool)
  | vStr (s : String)
  | vTime (t : TimeVal)
  | vDate (d : CivDate)
  | vDateTime (d : CivDate) (c : Clock)
  | vTimeOfDay (c : Clock)
  | vKeyRef (k : KeyRef)
  | vStruct (fields : List (List String × GoVal))
  | vPtr (inner : Option GoVal)
  | vSlice (elems : List GoVal)
  | vIface (inner : Option GoVal)

/-- Association-list lookup keyed by a name path. -/
def alookup {α : Type} : List (List String × α) → List String → Option α
  | [], _ => none
  | (m, w) :: r, n => if m = n then some w else alookup r n

/-- Association-list update keyed by a name path (insert at the end when the
key is absent). -/
def aset {α : Type} : List (List String × α) → List String → α → List (List String × α)
  | [], n, v => [(n, v)]
  | (m, w) :: r, n, v => if m = n then (n, v) :: r else (m, w) :: aset r n v

/-- Shallow zero value of a field type (struct zeroes are empty partial
maps, every field of which reads back as its own zero). -/
def defaultFor : FTy → GoVal
  | .tInt => .vInt 0
  | .tFloat => .vFloat 0
  | .tBool => .vBool false
  | .tStr => .vStr ""
  | .tTime => .vTime ⟨0, .utc⟩
  | .tDate => .vDate ⟨0, 0, 0⟩
  | .tDateTime => .vDateTime ⟨0, 0, 0⟩ ⟨0, 0, 0⟩
  | .tTimeOfDay => .vTimeOfDay ⟨0, 0, 0⟩
  | .tStruct _ => .vStruct []
  | .tPtr _ => .vPtr none
  | .tSlice _ => .vSlice []
  | .tIfaceAny => .vIface none
  | .tIface _ _ => .vIface none

/-- The struct-field map of a value (empty for non-struct values). -/
def structFields : GoVal → List (List String × GoVal)
  | .vStruct fl => fl
  | _ => []

/-- The natural typed equivalent of a decoded value, as assigned into an
interface slot (null gives the unset interface); fuelled for the nested
entity/array cases. -/
def naturalOf : Nat → DVal → Option GoVal
  | _, .null => none
  | _, .int i => some (.vInt i)
  | _, .float x => some (.vFloat x)
  | _, .bool b => some (.vBool b)
  | _, .str s => some (.vStr s)
  | _, .time sec _ => some (.vTime ⟨sec, .utc⟩)
  | _, .key k => some (.vKeyRef k)
  | 0, .entity _ _ => none
  | 0, .arr _ => none
  | Nat.succ n, .entity _ props =>
      some (.vStruct (props.map (fun p => (p.1, (naturalOf n p.2).getD (.vIface none)))))
  | Nat.succ n, .arr vs =>
      some (.vSlice (vs.map (fun w => (naturalOf n w).getD (.vIface none))))

/-- Per-field load errors (spec §7): the first three constructors are the
recoverable field-mismatch class (`*ErrFieldMismatch`); `other` is any
non-mismatch (fatal/custom) error. -/
inductive LoadErr where
  | fieldMismatch (field : List String) (reason : String)
  | nullIntoStruct (field : List String)
  | notAssignable (field : List String) (srcKind : String) (ifaceName : String)
  | other (msg : String)
deriving DecidableEq, Repr

/-- Whether an error belongs to the recoverable field-mismatch class. -/
def LoadErr.isMismatch : LoadErr → Bool
  | .other _ => false
  | _ => true

/-- Modelled from the spec: one step of the Load Orchestrator's property
routing (datastore `load.go` is not under src). A property name is matched
exactly against the field map (which may contain dotted tag names); failing
that, a dotted name is split at its first segment, routed into that field,
and the remainder is delivered as a one-property nested entity (spec §4.1,
§4.3). `ld` is the value-coercion engine for one field. -/
def assignProp (ld : FTy → List String → GoVal → DVal → GoVal × List LoadErr)
    (fs : List (List String × FTy)) (flds : List (List String × GoVal))
    (name : List String) (v : DVal) :
    List (List String × GoVal) × List LoadErr :=
  match alookup fs name with
  | some fty =>
      let curv := (alookup flds name).getD (defaultFor fty)
      let r := ld fty name curv v
      (aset flds name r.1, r.2)
  | none =>
      match name with
      | seg :: rest =>
          if rest = [] then
            (flds, [LoadErr.fieldMismatch name "no such struct field"])
          else
            match alookup fs [seg] with
            | some fty =>
                let curv := (alookup flds [seg]).getD (defaultFor fty)
                let r := ld fty [seg] curv (.entity none [(rest, v)])
                (aset flds [seg] r.1, r.2)
            | none => (flds, [LoadErr.fieldMismatch name "no such struct field"])
      | [] => (flds, [LoadErr.fieldMismatch name "no such struct field"])

/-- Modelled from the spec: the Load Orchestrator's walk over a property
list (datastore `load.go` is not under src): each property is routed and
coerced in turn, field-mismatch errors are accumulated without stopping,
and successfully assigned fields persist (spec §4.3). -/
def loadPropsWith (ld : FTy → List String → GoVal → DVal → GoVal × List LoadErr)
    (fs : List (List String × FTy)) :
    List (List String × GoVal) → List (List String × DVal) →
    List (List String × GoVal) × List LoadErr
  | flds, [] => (flds, [])
  | flds, (n, v) :: rest =>
      let r := assignProp ld fs flds n v
      let r2 := loadPropsWith ld fs r.1 rest
      (r2.1, r.2 ++ r2.2)

/-- Modelled from the spec: the Value Coercion Engine (datastore `load.go`
is not under src), `coerce(dst fieldSlot, value DecodedValue)` of spec
§4.2, fuelled by nesting depth. Returns the updated field value and the
field-level errors; on error the field keeps its prior content. Cases:
scalars convert directly with null giving the kind's zero; null resets a
pointer and is a hard error on a plain struct; a pointer otherwise reuses
its target (allocating when unset); a non-empty array replaces slice
contents element by element, an empty array is a no-op, and a non-array
wraps into a one-element slice; a nested entity merges into a struct's own
field map; interface slots take the value's natural type, checked against
the constraint when one is declared; timestamps normalize to UTC. -/
def loadVal : Nat → FTy → List String → GoVal → DVal → GoVal × List LoadErr
  | 0, _, _, cur, _ => (cur, [LoadErr.other "exceeded maximum load depth"])
  | Nat.succ n, ty, fname, cur, v =>
      match ty, v with
      | .tIfaceAny, w => (.vIface (naturalOf n w), [])
      | .tIface iname allowed, w =>
          if kindOf w ∈ allowed then (.vIface (naturalOf n w), [])
          else (cur, [LoadErr.notAssignable fname (kindName (kindOf w)) iname])
      | .tPtr _, .null => (.vPtr none, [])
      | .tPtr t, w =>
          let target := match cur with
            | .vPtr (some inner) => inner
            | _ => defaultFor t
          let r := loadVal n t fname target w
          (.vPtr (some r.1), r.2)
      | .tSlice _, .arr [] => (cur, [])
      | .tSlice t, .arr vs =>
          let rs := vs.map (fun w => loadVal n t fname (defaultFor t) w)
          (.vSlice (rs.map Prod.fst), rs.foldr (fun r acc => r.2 ++ acc) [])
      | .tSlice t, w =>
          let r := loadVal n t fname (defaultFor t) w
          (.vSlice [r.1], r.2)
      | .tStruct fs, .entity _ props =>
          let r := loadPropsWith (fun ty1 => loadVal n ty1) fs (structFields cur) props
          (.vStruct r.1, r.2)
      | .tStruct _, .null => (cur, [LoadErr.nullIntoStruct fname])
      | .tStruct _, w =>
          (cur, [LoadErr.fieldMismatch fname
            ("cannot load " ++ kindName (kindOf w) ++ " into a struct field")])
      | .tInt, .int i => (.vInt i, [])
      | .tInt, .null => (.vInt 0, [])
      | .tFloat, .float x => (.vFloat x, [])
      | .tFloat, .null => (.vFloat 0, [])
      | .tBool, .bool b => (.vBool b, [])
      | .tBool, .null => (.vBool false, [])
      | .tStr, .str s => (.vStr s, [])
      | .tStr, .null => (.vStr "", [])
      | .tTime, .time sec _ => (.vTime ⟨sec, .utc⟩, [])
      | .tTime, .null => (.vTime ⟨0, .utc⟩, [])
      | .tDate, .time sec _ => (.vDate (civilFromDays (Int.ediv sec 86400)), [])
      | .tDateTime, .time sec _ =>
          (.vDateTime (civilFromDays (Int.ediv sec 86400))
            (secondsToClock (Int.emod sec 86400)), [])
      | .tTimeOfDay, .time sec _ => (.vTimeOfDay (secondsToClock (Int.emod sec 86400)), [])
      | _, w =>
          (cur, [LoadErr.fieldMismatch fname
            ("type mismatch for value of kind " ++ kindName (kindOf w))])

/-- Modelled from the spec: top-level reflection-driven load of an entity's
property list into a record of the given field map (datastore `load.go` is
not under src). -/
def loadStruct (fuel : Nat) (fs : List (List String × FTy))
    (flds : List (List String × GoVal)) (props : List (List String × DVal)) :
    List (List String × GoVal) × List LoadErr :=
  loadPropsWith (fun ty1 => loadVal fuel ty1) fs flds props

/-- A record implementing the custom-load capability, and optionally the
key-assignment capability, over an abstract record state `σ` (spec §4.4). -/
structure PLSRec (σ : Type) where
  load : σ → List (List String × DVal) → σ × Option LoadErr
  loadKey : Option (σ → Option KeyRef → σ × Option LoadErr)

/-- Modelled from the spec: the Capability Dispatcher's custom-load path of
`loadEntity` (datastore `load.go` is not under src). Custom load receives
the entire property list; the key-assignment capability, when present, is
then invoked with the entity's key in every case; a field-mismatch load
error is reported preferentially over the key error, a key error is
reported when load produced no field-mismatch of its own (pinned by the
`TestKeyLoader` cases in src). -/
def loadEntityPLS {σ : Type} (r : PLSRec σ) (s : σ) (key : Option KeyRef)
    (props : List (List String × DVal)) : σ × Option LoadErr :=
  let r1 := r.load s props
  match r.loadKey with
  | none => r1
  | some lk =>
      let r2 := lk r1.1 key
      match r1.2, r2.2 with
      | some e, some ke => if e.isMismatch then (r2.1, some e) else (r2.1, some ke)
      | some e, none => (r2.1, some e)
      | none, ke => (r2.1, ke)

/-- Field map of the tests' `NestedSimple1` record: `A (struct\x7bI int\x7d)`
and `X (string)`. -/
def nestedSimple1Fields : List (List String × FTy) :=
  [(["A"], .tStruct [(["I"], .tInt)]), (["X"], .tStr)]

/-- Field map of the tests' `ABDotB` record: field `A` of a struct type
whose single field carries the dotted tag `B.B`. -/
def abDotBFields : List (List String × FTy) :=
  [(["A"], .tStruct [(["B", "B"], .tStr)])]

/-- State of the tests' `KeyLoader6` record: two string fields and a key
slot. -/
structure KL6 where
  a : String
  b : String
  k : Option KeyRef
deriving DecidableEq, Repr

/-- `KeyLoader6.Load`: copies property `A`, then reports a field-mismatch
for `B`. -/
def kl6Load (st : KL6) (props : List (List String × DVal)) : KL6 × Option LoadErr :=
  ({ st with a := match alookup props ["A"] with
      | some (.str s) => s
      | _ => st.a },
   some (.fieldMismatch ["B"] "no value found"))

/-- `KeyLoader6.LoadKey`: stores the entity's key. -/
def kl6LoadKey (st : KL6) (k : Option KeyRef) : KL6 × Option LoadErr :=
  ({ st with k := k }, none)

/-- `KeyLoader6` as a capability record. -/
def kl6Rec : PLSRec KL6 := ⟨kl6Load, some kl6LoadKey⟩

/- ============================== Theorems ================================= -/

theorem alookup_aset_ne {α : Type} (flds : List (List String × α)) (n m : List String)
    (v : α) (h : m ≠ n) : alookup (aset flds n v) m = alookup flds m := by
  induction flds with
  | nil => simp [aset, alookup, Ne.symm h]
  | cons p r ih =>
      obtain ⟨k, w⟩ := p
      by_cases hk : k = n
      · subst hk
        simp [aset, alookup, Ne.symm h]
      · simp [aset, alookup, hk, ih]

theorem assignProp_frame (ld : FTy → List String → GoVal → DVal → GoVal × List LoadErr)
    (fs : List (List String × FTy)) (flds : List (List String × GoVal))
    (name : List String) (v : DVal) (f : List String)
    (h1 : f ≠ name) (h2 : f ≠ name.take 1) :
    alookup (assignProp ld fs flds name v).1 f = alookup flds f := by
  cases hfs : alookup fs name with
  | some fty =>
      simp only [assignProp, hfs]
      exact alookup_aset_ne _ _ _ _ h1
  | none =>
      cases name with
      | nil => simp [assignProp, hfs]
      | cons seg rest =>
          by_cases hr : rest = []
          · subst hr
            simp [assignProp, hfs]
          · have hf : f ≠ [seg] := by
              simpa using h2
            cases hfs2 : alookup fs [seg] with
            | some fty =>
                simp only [assignProp, hfs, hr, if_neg hr, hfs2]
                exact alookup_aset_ne _ _ _ _ hf
            | none => simp [assignProp, hfs, hr, hfs2]

theorem loadPropsWith_frame (ld : FTy → List String → GoVal → DVal → GoVal × List LoadErr)
    (fs : List (List String × FTy)) (props : List (List String × DVal)) :
    ∀ (flds : List (List String × GoVal)) (f : List String),
    (∀ p ∈ props, f ≠ p.1 ∧ f ≠ p.1.take 1) →
    alookup (loadPropsWith ld fs flds props).1 f = alookup flds f := by
  induction props with
  | nil =>
      intro flds f _
      rfl
  | cons p rest ih =>
      intro flds f h
      obtain ⟨n, v⟩ := p
      have h1 := h (n, v) (List.mem_cons_self _ _)
      have hrest : ∀ q ∈ rest, f ≠ q.1 ∧ f ≠ q.1.take 1 :=
        fun q hq => h q (List.mem_cons_of_mem _ hq)
      show alookup (loadPropsWith ld fs (assignProp ld fs flds n v).1 rest).1 f = alookup flds f
  
      rw [ih _ _ hrest, assignProp_frame ld fs flds n v f h1.1 h1.2]

theorem loadVal_slice_nonarr (n : Nat) (t : FTy) (fname : List String) (cur : GoVal)
    (v : DVal) (hv : kindOf v ≠ .kArr) :
    loadVal (n + 1) (.tSlice t) fname cur v
      = (.vSlice [(loadVal n t fname (defaultFor t) v).1],
         (loadVal n t fname (defaultFor t) v).2) := by
  cases v
  case arr vs => exact absurd rfl hv
  all_goals rfl

/-- C1: for every record implementing both the custom-load and custom
key-assignment capabilities, if custom load returns a field-mismatch error
the key-assignment capability is still invoked with the entity's key and the
load error is reported preferentially; when load produced no error, the key
capability's error is the one reported. -/
theorem keyLoader_dispatch {σ : Type} (r : PLSRec σ) (s : σ) (key : Option KeyRef)
    (props : List (List String × DVal))
    (lk : σ → Option KeyRef → σ × Option LoadErr)
    (hk : r.loadKey = some lk) :
    (∀ (s1 : σ) (e : LoadErr), r.load s props = (s1, some e) → e.isMismatch = true →
      loadEntityPLS r s key props = ((lk s1 key).1, some e))
    ∧ (∀ s1 : σ, r.load s props = (s1, none) →
      loadEntityPLS r s key props = lk s1 key) := by
  constructor
  · intro s1 e h1 h2
    simp only [loadEntityPLS, hk, h1]
    cases hke : (lk s1 key).2 with
    | none => simp
    | some ke => simp [hke, h2]
  · intro s1 h1
    simp only [loadEntityPLS, hk, h1]

/-- Witness for C1: the `KeyLoader6` test case — custom load copies `A`,
reports a field-mismatch for `B`, and the key is still assigned while the
load error is the one reported. -/
theorem keyLoader_dispatch_witness :
    loadEntityPLS kl6Rec ⟨"", "", none⟩ (some (KeyRef.complete "t" "name0"))
        [(["A"], .str "hello")]
      = (⟨"hello", "", some (KeyRef.complete "t" "name0")⟩,
         some (.fieldMismatch ["B"] "no value found")) := by
  have h := (keyLoader_dispatch kl6Rec ⟨"", "", none⟩ (some (KeyRef.complete "t" "name0"))
      [(["A"], .str "hello")] kl6LoadKey rfl).1
      ⟨"hello", "", none⟩ (.fieldMismatch ["B"] "no value found") rfl rfl
  exact h

/-- C2: loading into an already-populated record is a field-by-field merge:
a field not named (directly or as the head of a dotted path) by any incoming
property keeps its prior contents; a property naming a mapped field
overwrites exactly that field through the coercion engine; and a null value
into a pointer field resets it to unset regardless of prior content. -/
theorem alreadyPopulated_merge :
    (∀ (fuel : Nat) (fs : List (List String × FTy))
       (flds : List (List String × GoVal)) (props : List (List String × DVal))
       (f : List String),
       (∀ p ∈ props, f ≠ p.1 ∧ f ≠ p.1.take 1) →
       alookup (loadPropsWith (fun ty1 => loadVal fuel ty1) fs flds props).1 f
         = alookup flds f)
    ∧ (∀ (fuel : Nat) (fs : List (List String × FTy))
       (flds : List (List String × GoVal)) (name : List String) (v : DVal)
       (fty : FTy), alookup fs name = some fty →
       loadPropsWith (fun ty1 => loadVal fuel ty1) fs flds [(name, v)]
         = (aset flds name
              (loadVal fuel fty name ((alookup flds name).getD (defaultFor fty)) v).1,
            (loadVal fuel fty name ((alookup flds name).getD (defaultFor fty)) v).2))
    ∧ (∀ (n : Nat) (fname : List String) (t : FTy) (cur : GoVal),
       loadVal (n + 1) (.tPtr t) fname cur .null = (.vPtr none, [])) := by
  refine ⟨?_, ?_, ?_⟩
  · intro fuel fs flds props f hf
    exact loadPropsWith_frame _ fs props flds f hf
  · intro fuel fs flds name v fty h
    simp [loadPropsWith, assignProp, h]
  · intro n fname t cur
    rfl

/-- Witness for C2: the `TestAlreadyPopulatedDst` shapes — with
`SimpleTwoFields\x7bS: "hello"\x7d` as destination and a single property `SS`,
field `S` keeps its prior contents and `SS` is overwritten; a null resets a
populated pointer field. -/
theorem alreadyPopulated_merge_witness :
    alookup (loadPropsWith (fun ty1 => loadVal 1 ty1)
        [(["S"], .tStr), (["SS"], .tStr)]
        [(["S"], .vStr "hello")]
        [(["SS"], .str "world")]).1 ["S"]
      = some (.vStr "hello")
    ∧ loadPropsWith (fun ty1 => loadVal 1 ty1)
        [(["S"], .tStr), (["SS"], .tStr)]
        [(["S"], .vStr "hello")]
        [(["SS"], .str "world")]
      = ([(["S"], .vStr "hello"), (["SS"], .vStr "world")], [])
    ∧ loadVal 1 (.tPtr (.tStruct [(["S"], .tStr), (["SS"], .tStr)])) ["Nest"]
        (.vPtr (some (.vStruct [(["SS"], .vStr "twice hello")]))) .null
      = (.vPtr none, []) := by
  refine ⟨?_, ?_, alreadyPopulated_merge.2.2 0 ["Nest"] _ _⟩
  · have h := alreadyPopulated_merge.1 1 [(["S"], .tStr), (["SS"], .tStr)]
      [(["S"], .vStr "hello")] [(["SS"], .str "world")] ["S"] (by decide)
    simpa using h
  · have h := alreadyPopulated_merge.2.1 1 [(["S"], .tStr), (["SS"], .tStr)]
      [(["S"], .vStr "hello")] ["SS"] (.str "world") .tStr rfl
    simpa using h

/-- C3: a null value into an integer, float, bool or string field yields
that kind's zero value with no error; into a pointer-to-struct field it
yields unset with no error; into a plain struct field it is an error. -/
theorem loadNull_semantics (n : Nat) (fname : List String) (cur : GoVal)
    (fs : List (List String × FTy)) :
    loadVal (n + 1) .tInt fname cur .null = (.vInt 0, [])
    ∧ loadVal (n + 1) .tFloat fname cur .null = (.vFloat 0, [])
    ∧ loadVal (n + 1) .tBool fname cur .null = (.vBool false, [])
    ∧ loadVal (n + 1) .tStr fname cur .null = (.vStr "", [])
    ∧ loadVal (n + 1) (.tPtr (.tStruct fs)) fname cur .null = (.vPtr none, [])
    ∧ loadVal (n + 1) (.tStruct fs) fname cur .null
        = (cur, [.nullIntoStruct fname]) :=
  ⟨rfl, rfl, rfl, rfl, rfl, rfl⟩

/-- C4: a value whose kind does not satisfy a constrained interface field is
a field-level error naming the source kind and the interface type; an
unconstrained interface field that already holds a value is overwritten by
the incoming value's natural-typed equivalent regardless of what it held. -/
theorem interface_assignment :
    (∀ (n : Nat) (fname : List String) (iname : String) (allowed : List VKind)
       (cur : GoVal) (v : DVal), kindOf v ∉ allowed →
       loadVal (n + 1) (.tIface iname allowed) fname cur v
         = (cur, [.notAssignable fname (kindName (kindOf v)) iname]))
    ∧ (∀ (n : Nat) (fname : List String) (w : GoVal) (v : DVal),
       loadVal (n + 1) .tIfaceAny fname (.vIface (some w)) v
         = (.vIface (naturalOf n v), [])) := by
  constructor
  · intro n fname iname allowed cur v h
    have heq : loadVal (n + 1) (.tIface iname allowed) fname cur v
        = if kindOf v ∈ allowed then (.vIface (naturalOf n v), [])
          else (cur, [.notAssignable fname (kindName (kindOf v)) iname]) := rfl
    rw [heq, if_neg h]
  · intro n fname w v
    rfl

/-- Witness for C4: the `fmt.Stringer` test case — a string value is not
assignable to a `fmt.Stringer`-constrained field, and the error names the
kind "string" and the interface; an untyped interface holding a float is
overwritten by an incoming string. -/
theorem interface_assignment_witness :
    loadVal 1 (.tIface "fmt.Stringer" []) ["Field"] (.vIface none) (.str "Foo")
      = (.vIface none, [.notAssignable ["Field"] "string" "fmt.Stringer"])
    ∧ loadVal 1 .tIfaceAny ["Field"] (.vIface (some (.vFloat 1000000000)))
        (.str "Newly set")
      = (.vIface (some (.vStr "Newly set")), []) := by
  refine ⟨?_, interface_assignment.2 0 ["Field"] (.vFloat 1000000000) (.str "Newly set")⟩
  exact interface_assignment.1 0 ["Field"] "fmt.Stringer" [] (.vIface none)
    (.str "Foo") (by simp)

/-- Counterexample for C5: for the JSON body
`\x7b"access_token":"","token_type":"bearer"\x7d` with HTTP 200, `fetchToken`
fails with the plain `errors.New` "missing access_token" error, which is
not the typed error carrying the raw HTTP response that the claim
promises for an omitted access token. -/
theorem fetchToken_typed_error_counterexample :
    fetchTokenResp ⟨200, "\x7b\"access_token\":\"\",\"token_type\":\"bearer\"\x7d"⟩
        (.jsonTok ⟨"", "bearer", "", 0, "", "", ""⟩)
      = .error (.plainMsg "auth: server response missing access_token")
    ∧ FetchErr.carriesRawResponse
        (.plainMsg "auth: server response missing access_token") = false :=
  ⟨rfl, rfl⟩

/-- C5 (amended): a reported OAuth error yields the typed error carrying
the raw HTTP response; a success-status response with no OAuth error but an
empty access token yields the plain "missing access_token" error; in both
cases no token is returned, and a successful fetch never carries an empty
token value (JSON and form-encoded branches alike). -/
theorem fetchToken_no_empty_token :
    (∀ (resp : RawResponse) (tj : TokenJSON), tj.errorCode ≠ "" →
       fetchTokenResp resp (.jsonTok tj)
         = .error (.typedErr resp tj.errorCode tj.errorDescription tj.errorURI))
    ∧ (∀ (resp : RawResponse) (tj : TokenJSON),
       200 ≤ resp.status → resp.status ≤ 299 →
       tj.errorCode = "" → tj.accessToken = "" →
       fetchTokenResp resp (.jsonTok tj)
         = .error (.plainMsg "auth: server response missing access_token"))
    ∧ (∀ (resp : RawResponse) (tj : TokenJSON) (t : AuthToken) (rt : String),
       fetchTokenResp resp (.jsonTok tj) = .ok (t, rt) → t.value ≠ "")
    ∧ (∀ (resp : RawResponse) (vals : List (String × String)) (t : AuthToken)
       (rt : String),
       fetchTokenResp resp (.formVals vals) = .ok (t, rt) → t.value ≠ "") := by
  refine ⟨?_, ?_, ?_, ?_⟩
  · intro resp tj h
    simp only [fetchTokenResp]
    rw [if_pos (Or.inr (Or.inr h))]
  · intro resp tj hlo hhi hcode hempty
    simp only [fetchTokenResp]
    rw [if_neg (by
      intro hor
      rcases hor with h | h | h
      · omega
      · omega
      · exact h hcode)]
    rw [if_pos hempty]
  · intro resp tj t rt h
    simp only [fetchTokenResp] at h
    split at h
    · exact absurd h (by simp)
    · split at h
      · exact absurd h (by simp)
      · rename_i hne
        intro hv
        apply hne
        have ht := (Except.ok.inj h)
        have hval : t.value = tj.accessToken :=
          (congrArg (fun p => (Prod.fst p).value) ht).symm
        rw [← hval, hv]
  · intro resp vals t rt h
    simp only [fetchTokenResp] at h
    split at h
    · exact absurd h (by simp)
    · split at h
      · exact absurd h (by simp)
      · rename_i hne
        intro hv
        apply hne
        have ht := (Except.ok.inj h)
        have hval : t.value = getVal vals "access_token" :=
          (congrArg (fun p => (Prod.fst p).value) ht).symm
        rw [← hval, hv]

/-- Witness for C5 (amended): at HTTP 200 with the empty-token JSON body the
result is the plain "missing access_token" error, and an OAuth error body
yields the typed error carrying the response. -/
theorem fetchToken_no_empty_token_witness :
    fetchTokenResp ⟨200, "\x7b\"access_token\":\"\",\"token_type\":\"bearer\"\x7d"⟩
        (.jsonTok ⟨"", "bearer", "", 0, "", "", ""⟩)
      = .error (.plainMsg "auth: server response missing access_token")
    ∧ fetchTokenResp ⟨200, "\x7b\"error\":\"invalid_grant\"\x7d"⟩
        (.jsonTok ⟨"", "", "", 0, "invalid_grant", "bad", "uri"⟩)
      = .error (.typedErr ⟨200, "\x7b\"error\":\"invalid_grant\"\x7d"⟩
          "invalid_grant" "bad" "uri") := by
  constructor
  · exact fetchToken_no_empty_token.2.1 ⟨200, "\x7b\"access_token\":\"\",\"token_type\":\"bearer\"\x7d"⟩
      ⟨"", "bearer", "", 0, "", "", ""⟩ (by decide) (by decide) rfl rfl
  · exact fetchToken_no_empty_token.1 ⟨200, "\x7b\"error\":\"invalid_grant\"\x7d"⟩
      ⟨"", "", "", 0, "invalid_grant", "bad", "uri"⟩ (by decide)

/-- C6: loading an empty array into a slice field is a no-op that leaves
existing contents unchanged, and loading a non-array value whose element
coercion succeeds yields a slice of length exactly one containing that
value. -/
theorem slice_cardinality :
    (∀ (n : Nat) (t : FTy) (fname : List String) (cur : GoVal),
       loadVal (n + 1) (.tSlice t) fname cur (.arr []) = (cur, []))
    ∧ (∀ (n : Nat) (t : FTy) (fname : List String) (cur : GoVal) (v : DVal)
       (w : GoVal),
       kindOf v ≠ .kArr →
       loadVal n t fname (defaultFor t) v = (w, []) →
       loadVal (n + 1) (.tSlice t) fname cur v = (.vSlice [w], [])) := by
  constructor
  · intro n t fname cur
    rfl
  · intro n t fname cur v w hv hw
    rw [loadVal_slice_nonarr n t fname cur v hv, hw]

/-- Witness for C6: the `TestLoadNonArrayIntoSlice` and
`TestLoadEmptyArrayIntoSlice` cases — a string into a `[]string` field
yields `["x"]`, and an empty array leaves the populated slice untouched. -/
theorem slice_cardinality_witness :
    loadVal 2 (.tSlice .tStr) ["S"] (.vSlice [.vStr "old"]) (.str "x")
      = (.vSlice [.vStr "x"], [])
    ∧ loadVal 2 (.tSlice .tStr) ["S"] (.vSlice [.vStr "x"]) (.arr [])
      = (.vSlice [.vStr "x"], []) :=
  ⟨slice_cardinality.2 1 .tStr ["S"] (.vSlice [.vStr "old"]) (.str "x") (.vStr "x")
      (by decide) rfl,
   slice_cardinality.1 1 .tStr ["S"] (.vSlice [.vStr "x"])⟩

/-- C7: a timestamp loaded into a time-valued field is expressed in UTC
whatever timezone the input carried; the well-known civil date/time
wrappers are computed from the UTC breakdown of the timestamp, never from
the input offset — including the tests' concrete instants. -/
theorem timestamp_utc (n : Nat) (fname : List String) (cur : GoVal) (sec : Int)
    (tzin : TZ) :
    loadVal (n + 1) .tTime fname cur (.time sec tzin) = (.vTime ⟨sec, .utc⟩, [])
    ∧ loadVal (n + 1) .tDate fname cur (.time sec tzin)
        = (.vDate (civilFromDays (Int.ediv sec 86400)), [])
    ∧ loadVal (n + 1) .tDateTime fname cur (.time sec tzin)
        = (.vDateTime (civilFromDays (Int.ediv sec 86400))
            (secondsToClock (Int.emod sec 86400)), [])
    ∧ loadVal (n + 1) .tDate fname cur (.time 1605474000 tzin)
        = (.vDate ⟨2020, 11, 15⟩, [])
    ∧ loadVal (n + 1) .tDateTime fname cur (.time 1605504600 tzin)
        = (.vDateTime ⟨2020, 11, 16⟩ ⟨5, 30, 0⟩, []) :=
  ⟨rfl, rfl, rfl, rfl, rfl⟩

/-- C8: dotted property names route through nested sub-entities whether the
levels are native structs or flattened dotted tags: `\x7b"A.I": 2, "X": "two"\x7d`
into a record with fields `A (struct\x7bI int\x7d)` and `X (string)` yields
`\x7bA:\x7bI:2\x7d, X:"two"\x7d`, and `"A.B.B"` reaches the leaf tagged `"B.B"`
nested under field `A`. -/
theorem dotted_routing :
    loadStruct 2 nestedSimple1Fields [] [(["A", "I"], .int 2), (["X"], .str "two")]
      = ([(["A"], .vStruct [(["I"], .vInt 2)]), (["X"], .vStr "two")], [])
    ∧ loadStruct 2 abDotBFields [] [(["A", "B", "B"], .str "bb")]
      = ([(["A"], .vStruct [(["B", "B"], .vStr "bb")])], []) :=
  ⟨rfl, rfl⟩

/-- C9: a null value loaded into a slice-of-scalar field is wrapped as a
single scalar, yielding a one-element slice holding the element kind's zero
value, with no error. -/
theorem null_into_slice (n : Nat) (fname : List String) (cur : GoVal) :
    loadVal (n + 2) (.tSlice .tInt) fname cur .null = (.vSlice [.vInt 0], [])
    ∧ loadVal (n + 2) (.tSlice .tFloat) fname cur .null = (.vSlice [.vFloat 0], [])
    ∧ loadVal (n + 2) (.tSlice .tBool) fname cur .null = (.vSlice [.vBool false], [])
    ∧ loadVal (n + 2) (.tSlice .tStr) fname cur .null = (.vSlice [.vStr ""], []) :=
  ⟨rfl, rfl, rfl, rfl⟩

/-- C10: when the authorization handler's returned state differs from the
configured state, `Token` fails with the state-mismatch error and the
result does not depend on the exchange at all; when the states are equal
the result is exactly that of the code-for-token exchange. -/
theorem handler_state_check (tpState : String) (hr : HandlerResult)
    (ex ex' : String → Except FetchErr (AuthToken × String)) :
    (hr.state ≠ tpState →
      tokenWithHandler tpState (.ok hr) ex
          = .error (.plainMsg "auth: state mismatch in 3-legged-OAuth flow")
        ∧ tokenWithHandler tpState (.ok hr) ex
            = tokenWithHandler tpState (.ok hr) ex')
    ∧ (hr.state = tpState →
      tokenWithHandler tpState (.ok hr) ex
        = match ex hr.code with
          | .error e => .error e
          | .ok (tok, _) => .ok tok) := by
  constructor
  · intro h
    constructor <;> simp [tokenWithHandler, h]
  · intro h
    simp [tokenWithHandler, h]

/-- Witness for C10: with configured state "good", a handler returning
state "evil" yields the state-mismatch error without consulting the
exchange, while a matching state returns the exchanged token. -/
theorem handler_state_check_witness :
    tokenWithHandler "good" (.ok ⟨"code123", "evil"⟩)
        (fun _ => .ok (⟨"tok", "bearer"⟩, ""))
      = .error (.plainMsg "auth: state mismatch in 3-legged-OAuth flow")
    ∧ tokenWithHandler "good" (.ok ⟨"code123", "good"⟩)
        (fun _ => .ok (⟨"tok", "bearer"⟩, ""))
      = .ok ⟨"tok", "bearer"⟩ := by
  constructor
  · exact ((handler_state_check "good" ⟨"code123", "evil"⟩
      (fun _ => .ok (⟨"tok", "bearer"⟩, ""))
      (fun _ => .ok (⟨"tok", "bearer"⟩, ""))).1 (by decide)).1
  · have h := (handler_state_check "good" ⟨"code123", "good"⟩
      (fun _ => .ok (⟨"tok", "bearer"⟩, ""))
      (fun _ => .ok (⟨"tok", "bearer"⟩, ""))).2 rfl
    simpa using h
